import Mathlib

/-!
Verification of the candidate search logic of `src/app.py` (the TalentGraph
Copilot MVP).  The only algorithmic component is `search_candidates`
(src/app.py lines 161-263): a linear scan over candidate rows that applies an
availability filter, a location filter, a tech-tag filter with an optional
recency ("last used") window and an optional responsibilities keyword, then
computes a tenure figure and a match score and returns the survivors sorted
by score, descending.

Modelling decisions, each anchored to the source:

* Strings.  Python `str.lower`, `str.strip`, `str.split(",")`,
  `str.startswith` and the substring operator `in` are modelled on `List
  Char` (`lowerL`, `trimL`, `splitComma`, `leadMatch`, `hasSub`).  All input
  data in the app is ASCII, where `Char.toLower` agrees with Python `lower`.

* Dates.  The code uses `dateutil.parser.parse` and `datetime.date`
  subtraction/fields.  A date is modelled by the three observables the code
  uses: its proleptic day number `days` (Python `(e - s).days = e.days -
  s.days`), and its `year` and `month` fields (used only by the month
  difference at line 219).  A stored date string is a `DateField`: SQL NULL /
  Python `None` (`null`), a string `dateutil` fails to parse (`unparsable`),
  or a string parsing to a given date (`parsed`).  Both the duration path
  (lines 188-198, where a falsy or literal `'none'` end date is first
  replaced by `date.today().isoformat()`, which parses back to today, and a
  parse failure falls into `except: ... = date.today()`) and the recency path
  (lines 215-218) therefore reduce to the same total function `parseOrToday`.

* Queries.  Python truthiness merges `None` with the falsy value of each
  type, and `search_candidates` only ever tests truthiness before use:
  `techs=None` behaves exactly like `techs=[]` (lines 186, 207, 229), and
  `last_used_months=None` exactly like `0` (lines 213, 233), so `techs` is a
  plain list and `last_used_months` a plain integer with `0` meaning unset.
  `availability`, `location` and `responsibilities_keyword` keep an explicit
  `Option` for SQL NULL / `None`, with `some ""` equally falsy.

* Numbers.  Python floats are modelled by exact rationals.  `round(x, 2)`
  (lines 258-259) is modelled as round-half-to-even at two decimals
  (`round2`); the binary-float artifacts of CPython `round` only surface at
  exact `.005` ties, and no claim below is decided at such a tie.

* Errors.  With zero surviving rows, `pd.DataFrame(results)` has no columns
  and `.sort_values(by="match_score")` (line 262) raises `KeyError`; the
  model returns `Except.error` exactly in that case.  `pandas.sort_values`
  is an unstable comparison sort by the given column, modelled by
  `List.insertionSort` on the score-descending relation.
-/

/-- `Char`-list lowercasing, mirroring Python `str.lower` on ASCII data. -/
def lowerL (l : List Char) : List Char := l.map Char.toLower

/-- Strip leading and trailing whitespace, mirroring Python `str.strip()`. -/
def trimL (l : List Char) : List Char :=
  ((l.dropWhile Char.isWhitespace).reverse.dropWhile Char.isWhitespace).reverse

/-- `leadMatch p l` holds when `p` is an initial segment of `l`,
mirroring Python `str.startswith`. -/
def leadMatch : List Char → List Char → Bool
  | [], _ => true
  | _ :: _, [] => false
  | a :: as, b :: bs => a == b && leadMatch as bs

/-- `hasSub n h` holds when `n` occurs contiguously inside `h`,
mirroring the Python substring operator `n in h`. -/
def hasSub (n : List Char) : List Char → Bool
  | [] => leadMatch n []
  | b :: h => leadMatch n (b :: h) || hasSub n h

/-- Split on the comma character, mirroring Python `str.split(",")`
(so the empty string yields one empty piece). -/
def splitComma : List Char → List (List Char)
  | [] => [[]]
  | c :: rest =>
    if c = ',' then [] :: splitComma rest
    else
      match splitComma rest with
      | [] => [[c]]
      | piece :: pieces => (c :: piece) :: pieces

/-- `s.lower().startswith(pre.lower())` (src/app.py line 175). -/
def startsWithLower (s pre : String) : Bool :=
  leadMatch (lowerL pre.toList) (lowerL s.toList)

/-- `needle.lower() in hay.lower()` (src/app.py lines 178, 201, 240). -/
def inLower (needle hay : String) : Bool :=
  hasSub (lowerL needle.toList) (lowerL hay.toList)

/-- Python `s.strip()` on a `String`. -/
def trimS (s : String) : String := String.mk (trimL s.toList)

/-- A calendar date, by the three observables `search_candidates` uses:
the proleptic day number (for subtraction, line 198) and the year and month
fields (for the month difference, line 219). -/
structure Date where
  days : Int
  year : Int
  month : Int
deriving DecidableEq

/-- A stored date column value, as seen through `dateutil.parser.parse`:
SQL NULL / Python `None`, an unparseable string, or a string denoting a
date.  (The literal string `'none'`, special-cased at line 189, is itself
unparseable, so it collapses into `unparsable`.) -/
inductive DateField
  | null
  | unparsable
  | parsed (d : Date)
deriving DecidableEq

/-- Effective date of a stored value: the parsed date when there is one,
else today.  This is the common meaning of lines 188-197 (duration), line
189 (missing end date is replaced by `date.today().isoformat()`) and lines
215-218 (recency). -/
def parseOrToday (today : Date) : DateField → Date
  | .parsed d => d
  | _ => today

/-- The month difference at line 219:
`(date.today().year - end_dt.year) * 12 + (date.today().month - end_dt.month)`. -/
def monthsDiff (today d : Date) : Int :=
  (today.year - d.year) * 12 + (today.month - d.month)

/-- A row of the `projects` table, restricted to the columns
`search_candidates` reads.  A NULL `tech_stack` is `""` because of the
`(p.get('tech_stack') or "")` at line 208. -/
structure Project where
  tech_stack : String
  responsibilities : String
  description : String
  start_date : DateField
  end_date : DateField
deriving DecidableEq

/-- A row of the `candidates` table, with its project rows, restricted to
the columns `search_candidates` reads. -/
structure Candidate where
  username : String
  full_name : String
  email : String
  location : Option String
  availability : Option String
  projects : List Project
deriving DecidableEq

/-- The arguments of `search_candidates` (line 161).  `techs = []` stands
for Python `None` as well as `[]`, and `last_used_months = 0` for `None` as
well as `0`: the code only ever tests their truthiness, which identifies
those pairs. -/
structure Query where
  techs : List String
  last_used_months : Int
  responsibilities_keyword : Option String
  availability : Option String
  location : Option String
deriving DecidableEq

/-- One result dict (lines 252-260). -/
structure SearchResult where
  username : String
  full_name : String
  email : String
  location : Option String
  availability : Option String
  years_experience : ℚ
  match_score : ℚ
deriving DecidableEq

/-- The normalized tag list of one project (line 208):
`[t.strip().lower() for t in tech_stack.split(",") if t.strip()]`. -/
def parseTags (s : String) : List (List Char) :=
  (splitComma s.toList).filterMap fun t =>
    if trimL t = [] then none else some (lowerL (trimL t))

/-- `t.lower()` for a required tag `t` (lines 210, 223: the query tag is
lowercased but never stripped inside `search_candidates`). -/
def lowTag (t : String) : List Char := lowerL t.toList

/-- The availability filter (lines 174-176): applied when the query value is
truthy and not the literal `"Any"`; the candidate survives when its own
value is truthy and starts, case-insensitively, with the query value. -/
def availFilter (qa : Option String) (ca : Option String) : Bool :=
  match qa with
  | none => true
  | some a =>
    if a = "" ∨ a = "Any" then true
    else
      match ca with
      | none => false
      | some s => if s = "" then false else startsWithLower s a

/-- The location filter (lines 177-179): applied when the query value is
truthy and non-blank after stripping; the candidate survives when its own
value is truthy and contains the stripped query, case-insensitively. -/
def locFilter (ql : Option String) (cl : Option String) : Bool :=
  match ql with
  | none => true
  | some l =>
    if l = "" ∨ trimS l = "" then true
    else
      match cl with
      | none => false
      | some s => if s = "" then false else inLower (trimS l) s

/-- The responsibilities keyword filter (lines 237-244): some project must
contain the stripped keyword in its responsibilities or description. -/
def respFilter (qk : Option String) (ps : List Project) : Bool :=
  match qk with
  | none => true
  | some k =>
    if k = "" ∨ trimS k = "" then true
    else ps.any fun p =>
      inLower (trimS k) p.responsibilities || inLower (trimS k) p.description

/-- The per-candidate accumulator of the project loop (lines 183-185). -/
structure LoopState where
  total_days : Int
  used_recent : Bool
  match_techs : Nat
deriving DecidableEq

/-- One iteration of the project loop (lines 187-224): accumulate the
clamped day span; when required techs are present, count the required tags
occurring in this project's tag list and, when a last-used window is set and
this project's effective end date lies within it, record whether some
required tag occurs here. -/
def projStep (today : Date) (techs : List String) (lum : Int)
    (st : LoopState) (p : Project) : LoopState :=
  let s_dt := parseOrToday today p.start_date
  let e_dt := parseOrToday today p.end_date
  let td := st.total_days + max 0 (e_dt.days - s_dt.days)
  if techs = [] then { st with total_days := td }
  else
    let p_techs := parseTags p.tech_stack
    let mt := st.match_techs + (techs.filter fun t => p_techs.contains (lowTag t)).length
    let ur :=
      if lum = 0 then st.used_recent
      else if monthsDiff today (parseOrToday today p.end_date) ≤ lum then
        st.used_recent || techs.any (fun t => p_techs.contains (lowTag t))
      else st.used_recent
    { total_days := td, used_recent := ur, match_techs := mt }

/-- The whole project loop for one candidate, from the zero state. -/
def candLoop (today : Date) (q : Query) (c : Candidate) : LoopState :=
  c.projects.foldl (projStep today q.techs q.last_used_months) ⟨0, false, 0⟩

/-- `years = total_days / 365.0` (line 246). -/
def rawYears (today : Date) (q : Query) (c : Candidate) : ℚ :=
  ((candLoop today q c).total_days : ℚ) / 365

/-- The match score before rounding (lines 247-251):
`min(1.0, match_techs / total_req)` when required techs are present, else
`min(1.0, years / 5.0)`. -/
def rawScore (today : Date) (q : Query) (c : Candidate) : ℚ :=
  if q.techs.length > 0 then
    min 1 (((candLoop today q c).match_techs : ℚ) / (q.techs.length : ℚ))
  else min 1 (rawYears today q c / 5)

/-- Round half to even at integer precision (model of CPython `round`;
see the header note on floats). -/
def roundHalfEven (x : ℚ) : ℤ :=
  let n : ℤ := ⌊x⌋
  let f : ℚ := x - (n : ℚ)
  if f < 1 / 2 then n
  else if 1 / 2 < f then n + 1
  else if n % 2 = 0 then n else n + 1

/-- Python `round(x, 2)` (lines 258-259). -/
def round2 (x : ℚ) : ℚ := ((roundHalfEven (x * 100) : ℤ) : ℚ) / 100

/-- The body of the candidate loop (lines 171-260): the two profile
filters, the project loop, the two tech-based drop rules, the keyword
filter, then the result dict with rounded tenure and score. -/
def processCandidate (today : Date) (q : Query) (c : Candidate) :
    Option SearchResult :=
  if availFilter q.availability c.availability = false then none
  else if locFilter q.location c.location = false then none
  else
    let st := candLoop today q c
    if q.techs ≠ [] ∧ st.match_techs = 0 then none
    else if q.techs ≠ [] ∧ q.last_used_months ≠ 0 ∧ st.used_recent = false then none
    else if respFilter q.responsibilities_keyword c.projects = false then none
    else
      some { username := c.username
             full_name := c.full_name
             email := c.email
             location := c.location
             availability := c.availability
             years_experience := round2 (rawYears today q c)
             match_score := round2 (rawScore today q c) }

/-- Result rows are compared by `match_score`, descending (line 262). -/
def scoreGE (a b : SearchResult) : Prop := b.match_score ≤ a.match_score

instance : DecidableRel scoreGE := fun a b =>
  inferInstanceAs (Decidable (b.match_score ≤ a.match_score))

instance : IsTotal SearchResult scoreGE :=
  ⟨fun a b => (le_total b.match_score a.match_score).imp id id⟩

instance : IsTrans SearchResult scoreGE :=
  ⟨fun _ _ _ hab hbc => le_trans hbc hab⟩

/-- `search_candidates` (lines 161-263).  The surviving rows are collected
in table order and sorted by score, descending.  When no row survives,
`pd.DataFrame([])` has no columns and `.sort_values(by="match_score")`
raises `KeyError` (line 262), modelled as `Except.error`. -/
def search_candidates (today : Date) (q : Query) (cands : List Candidate) :
    Except String (List SearchResult) :=
  let results := cands.filterMap (processCandidate today q)
  if results.isEmpty then Except.error "KeyError: match_score"
  else Except.ok (List.insertionSort scoreGE results)

/-- The day-span one project contributes (line 198):
`max(0, (e_dt - s_dt).days)`. -/
def daySpan (today : Date) (p : Project) : Int :=
  max 0 ((parseOrToday today p.end_date).days - (parseOrToday today p.start_date).days)

/-- The number of required tags found in one project's tag list: the
increment `match_techs` receives at lines 209-211 (one unit per required
tag per project, so a tag occurring in several projects counts once per
project). -/
def projHits (techs : List String) (p : Project) : Nat :=
  (techs.filter fun t => (parseTags p.tech_stack).contains (lowTag t)).length

/-- Total of `projHits` over a candidate's projects: the final value of
`match_techs` (occurrence counting). -/
def occCount (techs : List String) (c : Candidate) : Nat :=
  (c.projects.map (projHits techs)).sum

/-- A required tag is found, in the sense of lines 208-210, in at least one
of the candidate's projects. -/
def tagFoundB (t : String) (c : Candidate) : Bool :=
  c.projects.any fun p => (parseTags p.tech_stack).contains (lowTag t)

/-- The number of required tags found in at least one project (distinct-tag
counting, the quantity the specification's scoring clause describes). -/
def matchedTagCount (techs : List String) (c : Candidate) : Nat :=
  (techs.filter fun t => tagFoundB t c).length

instance {ε α : Type} [DecidableEq ε] [DecidableEq α] : DecidableEq (Except ε α) := fun a b =>
  match a, b with
  | .ok x, .ok y => if h : x = y then isTrue (by rw [h]) else isFalse (by simp [h])
  | .error x, .error y => if h : x = y then isTrue (by rw [h]) else isFalse (by simp [h])
  | .ok _, .error _ => isFalse (by simp)
  | .error _, .ok _ => isFalse (by simp)

/- Concrete data for evaluating the model on closed inputs.  Day numbers are
days since 1970-01-01 for the stated calendar dates. -/

/-- Evaluation time for the concrete scenarios: 2023-12-29. -/
def exToday : Date := ⟨19720, 2023, 12⟩

/-- Project 2021-01-01 .. 2023-06-30 (910 days), tags `python, pandas`. -/
def projPy : Project :=
  ⟨"python,pandas", "Built ML pipelines", "End-to-end ML platform",
   .parsed ⟨18628, 2021, 1⟩, .parsed ⟨19538, 2023, 6⟩⟩

/-- Project 2019-01-01 .. 2020-12-31 (730 days), tags `python, spark`. -/
def projSpark : Project :=
  ⟨"python,spark", "Streaming ingestion", "Kafka pipelines",
   .parsed ⟨17897, 2019, 1⟩, .parsed ⟨18627, 2020, 12⟩⟩

/-- Project 2021-01-01 .. 2023-06-30 (910 days), tags `python, aws`. -/
def projPyAws : Project :=
  ⟨"python,aws", "Built data platform", "Cloud ML platform",
   .parsed ⟨18628, 2021, 1⟩, .parsed ⟨19538, 2023, 6⟩⟩

def candAnanya : Candidate :=
  ⟨"ananya", "Ananya Gupta", "ananya@example.com", some "Bengaluru",
   some "1 month", [projPy]⟩

def candDeep : Candidate :=
  ⟨"deep", "Deep Verma", "deep@example.com", some "Pune",
   some "Immediate", [projPy, projSpark]⟩

def candAsha : Candidate :=
  ⟨"asha", "Asha Rao", "asha@example.com", some "Chennai",
   some "3 months", [projPyAws]⟩

/-- Query: tags `python, java`, no other filters. -/
def qPJ : Query := ⟨["python", "java"], 0, none, none, none⟩

/-- Query: tags `python, aws`, no other filters. -/
def qPA : Query := ⟨["python", "aws"], 0, none, none, none⟩

/-- Query: tag `python`, last used within 12 months. -/
def qRec : Query := ⟨["python"], 12, none, none, none⟩

/-- `candAnanya` under `qPJ`: one of two required tags occurs once;
910/365 years rounds to 2.49, the score `min(1, 1/2)` rounds to 1/2. -/
def resAnanyaPJ : SearchResult :=
  ⟨"ananya", "Ananya Gupta", "ananya@example.com", some "Bengaluru",
   some "1 month", 249/100, 1/2⟩

/-- `candDeep` under `qPJ`: the tag `python` occurs in two projects, so
`match_techs = 2 = len(techs)` and the reported score is 1. -/
def resDeepPJ : SearchResult :=
  ⟨"deep", "Deep Verma", "deep@example.com", some "Pune",
   some "Immediate", 449/100, 1⟩

/-- `candAsha` under `qPA`: both required tags occur, score 1. -/
def resAshaPA : SearchResult :=
  ⟨"asha", "Asha Rao", "asha@example.com", some "Chennai",
   some "3 months", 249/100, 1⟩

/-- `candAnanya` under `qPA`: one of two required tags occurs, score 1/2. -/
def resAnanyaPA : SearchResult :=
  ⟨"ananya", "Ananya Gupta", "ananya@example.com", some "Bengaluru",
   some "1 month", 249/100, 1/2⟩

/-- `candAnanya` under `qRec`: the single required tag occurs and the
project's effective end (2023-06) lies 6 months before evaluation time. -/
def resAnanyaRec : SearchResult :=
  ⟨"ananya", "Ananya Gupta", "ananya@example.com", some "Bengaluru",
   some "1 month", 249/100, 1⟩

/- Batteries marks the `Rat` field operations `@[irreducible]`, which only
blocks tactic-level evaluation; re-mark them semireducible so that closed
rational computations can be settled by `decide`. -/
attribute [local semireducible] Rat.mul Rat.inv Rat.add Rat.sub

example : search_candidates exToday qPJ [candAnanya] = .ok [resAnanyaPJ] := by decide
example : search_candidates exToday qPJ [candDeep] = .ok [resDeepPJ] := by decide
example : search_candidates exToday qPA [candAsha, candAnanya] = .ok [resAshaPA, resAnanyaPA] := by decide
example : search_candidates exToday qRec [candAnanya] = .ok [resAnanyaRec] := by decide

/-! Helper lemmas about the project loop, membership in search results, and
rounding. -/

theorem projStep_total_days (today : Date) (techs : List String) (lum : Int)
    (st : LoopState) (p : Project) :
    (projStep today techs lum st p).total_days = st.total_days + daySpan today p := by
  simp only [projStep, daySpan]
  split <;> rfl

theorem foldl_total_days (today : Date) (techs : List String) (lum : Int) :
    ∀ (ps : List Project) (st : LoopState),
      (ps.foldl (projStep today techs lum) st).total_days
        = st.total_days + (ps.map (daySpan today)).sum := by
  intro ps
  induction ps with
  | nil => intro st; simp
  | cons p ps ih =>
    intro st
    simp only [List.foldl_cons, List.map_cons, List.sum_cons]
    rw [ih, projStep_total_days]
    ring

theorem candLoop_total_days (today : Date) (q : Query) (c : Candidate) :
    (candLoop today q c).total_days = (c.projects.map (daySpan today)).sum := by
  rw [candLoop, foldl_total_days]
  simp

theorem projStep_match_techs (today : Date) (techs : List String) (lum : Int)
    (st : LoopState) (p : Project) :
    (projStep today techs lum st p).match_techs = st.match_techs + projHits techs p := by
  simp only [projStep, projHits]
  split
  · next h => subst h; rfl
  · rfl

theorem foldl_match_techs (today : Date) (techs : List String) (lum : Int) :
    ∀ (ps : List Project) (st : LoopState),
      (ps.foldl (projStep today techs lum) st).match_techs
        = st.match_techs + (ps.map (projHits techs)).sum := by
  intro ps
  induction ps with
  | nil => intro st; simp
  | cons p ps ih =>
    intro st
    simp only [List.foldl_cons, List.map_cons, List.sum_cons]
    rw [ih, projStep_match_techs]
    omega

theorem candLoop_match_techs (today : Date) (q : Query) (c : Candidate) :
    (candLoop today q c).match_techs = occCount q.techs c := by
  rw [candLoop, foldl_match_techs, occCount]
  simp

theorem projStep_used_recent (today : Date) (techs : List String) (lum : Int)
    (st : LoopState) (p : Project)
    (h : (projStep today techs lum st p).used_recent = true) :
    st.used_recent = true ∨
      (monthsDiff today (parseOrToday today p.end_date) ≤ lum ∧
        ∃ t ∈ techs, (parseTags p.tech_stack).contains (lowTag t) = true) := by
  simp only [projStep] at h
  split at h
  · exact Or.inl h
  · split at h
    · exact Or.inl h
    · split at h
      · next hmd =>
        rcases Bool.or_eq_true_iff.mp h with h' | h'
        · exact Or.inl h'
        · obtain ⟨t, ht, hpt⟩ := List.any_eq_true.mp h'
          exact Or.inr ⟨hmd, t, ht, hpt⟩
      · exact Or.inl h

theorem foldl_used_recent (today : Date) (techs : List String) (lum : Int) :
    ∀ (ps : List Project) (st : LoopState),
      (ps.foldl (projStep today techs lum) st).used_recent = true →
      st.used_recent = true ∨
        ∃ p ∈ ps, monthsDiff today (parseOrToday today p.end_date) ≤ lum ∧
          ∃ t ∈ techs, (parseTags p.tech_stack).contains (lowTag t) = true := by
  intro ps
  induction ps with
  | nil => intro st h; exact Or.inl h
  | cons p ps ih =>
    intro st h
    rcases ih (projStep today techs lum st p) h with h' | ⟨p', hp', hhit⟩
    · rcases projStep_used_recent today techs lum st p h' with h'' | hhit
      · exact Or.inl h''
      · exact Or.inr ⟨p, List.mem_cons_self p ps, hhit⟩
    · exact Or.inr ⟨p', List.mem_cons_of_mem p hp', hhit⟩

theorem candLoop_used_recent (today : Date) (q : Query) (c : Candidate)
    (h : (candLoop today q c).used_recent = true) :
    ∃ p ∈ c.projects,
      monthsDiff today (parseOrToday today p.end_date) ≤ q.last_used_months ∧
        ∃ t ∈ q.techs, (parseTags p.tech_stack).contains (lowTag t) = true := by
  rcases foldl_used_recent today q.techs q.last_used_months c.projects _ h with h' | h'
  · exact absurd h' (by simp)
  · exact h'

/-- Inversion of one pass of the candidate loop: a produced result comes
with every filter satisfied, and is exactly the rounded record. -/
theorem processCandidate_some {today : Date} {q : Query} {c : Candidate}
    {r : SearchResult} (h : processCandidate today q c = some r) :
    availFilter q.availability c.availability = true ∧
    locFilter q.location c.location = true ∧
    (q.techs ≠ [] → (candLoop today q c).match_techs ≠ 0) ∧
    (q.techs ≠ [] → q.last_used_months ≠ 0 → (candLoop today q c).used_recent = true) ∧
    respFilter q.responsibilities_keyword c.projects = true ∧
    r = { username := c.username, full_name := c.full_name, email := c.email,
          location := c.location, availability := c.availability,
          years_experience := round2 (rawYears today q c),
          match_score := round2 (rawScore today q c) } := by
  simp only [processCandidate] at h
  split at h
  · exact Option.noConfusion h
  next hav =>
  split at h
  · exact Option.noConfusion h
  next hloc =>
  split at h
  · exact Option.noConfusion h
  next htech =>
  split at h
  · exact Option.noConfusion h
  next hrec =>
  split at h
  · exact Option.noConfusion h
  next hresp =>
  refine ⟨?_, ?_, ?_, ?_, ?_, (Option.some.inj h).symm⟩
  · simpa using hav
  · simpa using hloc
  · exact fun ht h0 => htech ⟨ht, h0⟩
  · intro ht hl
    cases hur : (candLoop today q c).used_recent
    · exact absurd ⟨ht, hl, hur⟩ hrec
    · rfl
  · simpa using hresp

/-- Membership inversion for `search_candidates`. -/
theorem mem_search {today : Date} {q : Query} {cands : List Candidate}
    {rs : List SearchResult} {r : SearchResult}
    (h : search_candidates today q cands = Except.ok rs) (hr : r ∈ rs) :
    ∃ c ∈ cands, processCandidate today q c = some r := by
  simp only [search_candidates] at h
  split at h
  · exact Except.noConfusion h
  · rw [Except.ok.injEq] at h
    subst h
    exact List.mem_filterMap.mp ((List.mem_insertionSort scoreGE).mp hr)

theorem roundHalfEven_nonneg {x : ℚ} (hx : 0 ≤ x) : 0 ≤ roundHalfEven x := by
  have h0 : (0 : ℤ) ≤ ⌊x⌋ := Int.floor_nonneg.mpr hx
  simp only [roundHalfEven]
  split
  · exact h0
  split
  · omega
  split <;> omega

theorem roundHalfEven_le {x : ℚ} {B : ℤ} (hx : x ≤ (B : ℚ)) : roundHalfEven x ≤ B := by
  have hfl : ⌊x⌋ ≤ B := by
    have h := Int.floor_le_floor hx
    rwa [Int.floor_intCast] at h
  have hflx : ((⌊x⌋ : ℚ)) ≤ x := Int.floor_le x
  simp only [roundHalfEven]
  split
  · exact hfl
  next hge =>
  have hn1 : ⌊x⌋ + 1 ≤ B := by
    push_neg at hge
    have hlt : ((⌊x⌋ : ℚ)) < (B : ℚ) := by linarith
    exact Int.add_one_le_iff.mpr (by exact_mod_cast hlt)
  split
  · exact hn1
  split
  · exact hfl
  · exact hn1

theorem round2_mem_unit {x : ℚ} (h0 : 0 ≤ x) (h1 : x ≤ 1) :
    0 ≤ round2 x ∧ round2 x ≤ 1 := by
  have hh0 : (0 : ℚ) ≤ x * 100 := by linarith
  have hh1 : x * 100 ≤ ((100 : ℤ) : ℚ) := by push_cast; linarith
  have g0 := roundHalfEven_nonneg hh0
  have g1 := roundHalfEven_le hh1
  rw [round2]
  constructor
  · apply div_nonneg _ (by norm_num)
    exact_mod_cast g0
  · rw [div_le_one (by norm_num : (0:ℚ) < 100)]
    exact_mod_cast g1

theorem total_days_nonneg (today : Date) (q : Query) (c : Candidate) :
    0 ≤ (candLoop today q c).total_days := by
  rw [candLoop_total_days]
  apply List.sum_nonneg
  intro x hx
  obtain ⟨p, _, rfl⟩ := List.mem_map.mp hx
  exact le_max_left 0 _

theorem rawYears_nonneg (today : Date) (q : Query) (c : Candidate) :
    0 ≤ rawYears today q c := by
  rw [rawYears]
  apply div_nonneg _ (by norm_num)
  exact_mod_cast total_days_nonneg today q c

theorem rawScore_mem_unit (today : Date) (q : Query) (c : Candidate) :
    0 ≤ rawScore today q c ∧ rawScore today q c ≤ 1 := by
  rw [rawScore]
  split
  · constructor
    · exact le_min (by norm_num) (div_nonneg (by positivity) (by positivity))
    · exact min_le_left 1 _
  · constructor
    · refine le_min (by norm_num) ?_
      have := rawYears_nonneg today q c
      linarith
    · exact min_le_left 1 _

/-- An `occCount` that is nonzero exhibits a required tag found in some
project of the candidate. -/
theorem occCount_ne_zero {techs : List String} {c : Candidate}
    (h : occCount techs c ≠ 0) : ∃ t ∈ techs, tagFoundB t c = true := by
  by_contra hno
  push_neg at hno
  apply h
  rw [occCount]
  apply List.sum_eq_zero
  intro x hx
  obtain ⟨p, hp, rfl⟩ := List.mem_map.mp hx
  rw [projHits, List.length_eq_zero, List.filter_eq_nil_iff]
  intro t ht hcont
  have hfound : tagFoundB t c = true := by
    rw [tagFoundB, List.any_eq_true]
    exact ⟨p, hp, by simpa using hcont⟩
  exact absurd hfound (by simpa using hno t ht)

theorem toList_eq_nil {s : String} (h : s.toList = []) : s = "" := by
  cases s with
  | mk data =>
    cases data with
    | nil => rfl
    | cons a as => exact absurd h (by simp [String.toList])

theorem leadMatch_nil_right {l : List Char} (h : l ≠ []) : leadMatch l [] = false := by
  cases l with
  | nil => exact absurd rfl h
  | cons a as => rfl

theorem lowerL_ne_nil {s : String} (h : s ≠ "") : lowerL s.toList ≠ [] := by
  intro hm
  exact h (toList_eq_nil (by simpa [lowerL, List.map_eq_nil_iff] using hm))

theorem startsWithLower_empty {a : String} (ha : a ≠ "") :
    startsWithLower "" a = false := by
  show leadMatch (lowerL a.toList) [] = false
  exact leadMatch_nil_right (lowerL_ne_nil ha)

theorem inLower_empty_hay {n : String} (hn : n ≠ "") : inLower n "" = false := by
  show hasSub (lowerL n.toList) [] = false
  show leadMatch (lowerL n.toList) [] = false
  exact leadMatch_nil_right (lowerL_ne_nil hn)

/-! The claims. -/

/-- Claim C1, counterexample: under the query with required tags
`["python", "java"]`, `candAnanya` is returned (with `match_score = 1/2`)
although the required tag `"java"` is found in none of its entries — the
code (src/app.py lines 229-232) only demands `match_techs != 0`, not that
every required tag be found. -/
theorem search_returns_partial_tag_match_cex :
    search_candidates exToday qPJ [candAnanya] = Except.ok [resAnanyaPJ] ∧
    resAnanyaPJ.username = candAnanya.username ∧
    "java" ∈ qPJ.techs ∧ tagFoundB "java" candAnanya = false := by decide

/-- Claim C1, amended: for every non-empty required tag list, a candidate
appears in the result of search only if AT LEAST ONE required tag is found
(case-insensitively, as an exact token after comma-splitting) in the tag
set of at least one of that candidate's entries; candidates matching only
a strict subset of the required tags are still returned. -/
theorem search_keeps_some_required_tag (today : Date) (q : Query)
    (cands : List Candidate) (rs : List SearchResult) (r : SearchResult)
    (hq : q.techs ≠ []) (h : search_candidates today q cands = Except.ok rs)
    (hr : r ∈ rs) :
    ∃ c ∈ cands, r.username = c.username ∧ ∃ t ∈ q.techs, tagFoundB t c = true := by
  obtain ⟨c, hc, hp⟩ := mem_search h hr
  obtain ⟨-, -, hmt, -, -, hrEq⟩ := processCandidate_some hp
  have h0 : occCount q.techs c ≠ 0 := by
    rw [← candLoop_match_techs today q c]
    exact hmt hq
  exact ⟨c, hc, by rw [hrEq], occCount_ne_zero h0⟩

theorem search_keeps_some_required_tag_witness :
    ∃ c ∈ [candAnanya], resAnanyaPJ.username = c.username ∧
      ∃ t ∈ qPJ.techs, tagFoundB t c = true :=
  search_keeps_some_required_tag exToday qPJ [candAnanya] [resAnanyaPJ] resAnanyaPJ
    (by decide) (by decide) (by decide)

/-- Claim C2: the claim says search never raises and an empty candidate
collection yields an empty result.  In the code, zero surviving rows make
`pd.DataFrame(results)` a frame with no columns, and
`.sort_values(by="match_score")` (line 262) raises `KeyError` — modelled
here as the `Except.error` value that `search_candidates` returns for the
empty collection, for every query and evaluation time. -/
theorem search_errors_on_empty_collection (today : Date) (q : Query) :
    search_candidates today q [] = Except.error "KeyError: match_score" := rfl

/-- Claim C3, counterexample: `candDeep` carries the tag `python` in two
projects; under required tags `["python", "java"]` the code counts two
occurrences (`match_techs = 2`), so the reported score is
`min(1, 2/2) = 1`, while the claim's distinct-tag fraction is `1/2`. -/
theorem search_score_per_occurrence_cex :
    search_candidates exToday qPJ [candDeep] = Except.ok [resDeepPJ] ∧
    matchedTagCount qPJ.techs candDeep = 1 ∧
    qPJ.techs.length = 2 ∧
    resDeepPJ.match_score ≠
      (matchedTagCount qPJ.techs candDeep : ℚ) / (qPJ.techs.length : ℚ) := by decide

/-- Claim C3, amended: for every returned candidate under a non-empty
required tag list, `match_score` equals the rounded value of
`min(1, occurrence_count / required_tag_count)`, where `occurrence_count`
grants one point per (entry, required tag) pair whose tag set contains the
tag — per occurrence across entries, capped at 1, not one point per
distinct required tag. -/
theorem search_score_counts_occurrences (today : Date) (q : Query)
    (cands : List Candidate) (rs : List SearchResult) (r : SearchResult)
    (hq : q.techs ≠ []) (h : search_candidates today q cands = Except.ok rs)
    (hr : r ∈ rs) :
    ∃ c ∈ cands, r.username = c.username ∧
      r.match_score = round2 (min 1 ((occCount q.techs c : ℚ) / (q.techs.length : ℚ))) := by
  obtain ⟨c, hc, hp⟩ := mem_search h hr
  obtain ⟨-, -, -, -, -, hrEq⟩ := processCandidate_some hp
  refine ⟨c, hc, by rw [hrEq], ?_⟩
  have hm : r.match_score = round2 (rawScore today q c) := by rw [hrEq]
  rw [hm, rawScore, if_pos (List.length_pos.mpr hq), candLoop_match_techs]

theorem search_score_counts_occurrences_witness :
    ∃ c ∈ [candDeep], resDeepPJ.username = c.username ∧
      resDeepPJ.match_score =
        round2 (min 1 ((occCount qPJ.techs c : ℚ) / (qPJ.techs.length : ℚ))) :=
  search_score_counts_occurrences exToday qPJ [candDeep] [resDeepPJ] resDeepPJ
    (by decide) (by decide) (by decide)

/-- Claim C4: for every input on which search returns a result sequence,
the sequence is sorted in descending order of `match_score`: every
adjacent pair satisfies `r[i].match_score >= r[i+1].match_score`. -/
theorem search_results_sorted_desc (today : Date) (q : Query)
    (cands : List Candidate) (rs : List SearchResult)
    (h : search_candidates today q cands = Except.ok rs)
    (i : Nat) (hi : i + 1 < rs.length) :
    (rs.get ⟨i + 1, hi⟩).match_score ≤ (rs.get ⟨i, Nat.lt_of_succ_lt hi⟩).match_score := by
  have hs : List.Sorted scoreGE rs := by
    simp only [search_candidates] at h
    split at h
    · exact Except.noConfusion h
    · rw [Except.ok.injEq] at h
      subst h
      exact List.sorted_insertionSort scoreGE _
  exact hs.rel_get_of_lt (Fin.mk_lt_mk.mpr (Nat.lt_succ_self i))

theorem search_results_sorted_desc_witness :
    (([resAshaPA, resAnanyaPA] : List SearchResult).get ⟨1, by decide⟩).match_score ≤
      (([resAshaPA, resAnanyaPA] : List SearchResult).get
        ⟨0, Nat.lt_of_succ_lt (by decide)⟩).match_score :=
  search_results_sorted_desc exToday qPA [candAsha, candAnanya]
    [resAshaPA, resAnanyaPA] (by decide) 0 (by decide)

/-- Claim C5: every returned `match_score` lies in the closed interval
`[0, 1]`, in both scoring branches (required-tag fraction and tenure
fallback `min(1, years/5)`), the rounding preserving the bounds. -/
theorem search_score_in_unit_interval (today : Date) (q : Query)
    (cands : List Candidate) (rs : List SearchResult) (r : SearchResult)
    (h : search_candidates today q cands = Except.ok rs) (hr : r ∈ rs) :
    0 ≤ r.match_score ∧ r.match_score ≤ 1 := by
  obtain ⟨c, -, hp⟩ := mem_search h hr
  obtain ⟨-, -, -, -, -, hrEq⟩ := processCandidate_some hp
  have hm : r.match_score = round2 (rawScore today q c) := by rw [hrEq]
  rw [hm]
  obtain ⟨h0, h1⟩ := rawScore_mem_unit today q c
  exact round2_mem_unit h0 h1

theorem search_score_in_unit_interval_witness :
    0 ≤ resAnanyaPJ.match_score ∧ resAnanyaPJ.match_score ≤ 1 :=
  search_score_in_unit_interval exToday qPJ [candAnanya] [resAnanyaPJ] resAnanyaPJ
    (by decide) (by decide)

/-- Claim C6: the years-of-experience figure search computes for a
candidate (the `years` of line 246, `rawYears` here) equals the sum over
the candidate's entries of `max(0, effective_end - start)` in days divided
by 365, where `parseOrToday` substitutes the evaluation-time "today" for a
missing or unparseable date (so a null end date contributes
`(today - start).days`, clamped at zero). -/
theorem search_years_is_clamped_day_sum (today : Date) (q : Query) (c : Candidate) :
    rawYears today q c = (((c.projects.map (daySpan today)).sum : Int) : ℚ) / 365 := by
  rw [rawYears, candLoop_total_days]

/-- Claim C7: when a recency window is set and required tags are present,
every returned candidate has at least one entry that both carries some
required tag and has its effective end date within `recency_months` months
of evaluation time, months being compared as `12*Δyear + Δmonth`. -/
theorem search_recency_requires_recent_tag (today : Date) (q : Query)
    (cands : List Candidate) (rs : List SearchResult) (r : SearchResult)
    (hq : q.techs ≠ []) (hl : q.last_used_months ≠ 0)
    (h : search_candidates today q cands = Except.ok rs) (hr : r ∈ rs) :
    ∃ c ∈ cands, r.username = c.username ∧
      ∃ p ∈ c.projects,
        monthsDiff today (parseOrToday today p.end_date) ≤ q.last_used_months ∧
          ∃ t ∈ q.techs, (parseTags p.tech_stack).contains (lowTag t) = true := by
  obtain ⟨c, hc, hp⟩ := mem_search h hr
  obtain ⟨-, -, -, hur, -, hrEq⟩ := processCandidate_some hp
  exact ⟨c, hc, by rw [hrEq], candLoop_used_recent today q c (hur hq hl)⟩

theorem search_recency_requires_recent_tag_witness :
    ∃ c ∈ [candAnanya], resAnanyaRec.username = c.username ∧
      ∃ p ∈ c.projects,
        monthsDiff exToday (parseOrToday exToday p.end_date) ≤ qRec.last_used_months ∧
          ∃ t ∈ qRec.techs, (parseTags p.tech_stack).contains (lowTag t) = true :=
  search_recency_requires_recent_tag exToday qRec [candAnanya] [resAnanyaRec]
    resAnanyaRec (by decide) (by decide) (by decide) (by decide)

/-- Claim C8: when the query availability is truthy and not the wildcard
(spelled `"Any"` in the code), a candidate with availability bucket `ca`
is kept by the availability filter of search if and only if `ca`,
case-insensitively, starts with the query bucket — prefix matching, not
exact matching. -/
theorem availability_filter_prefix_iff (a ca : String) (ha : a ≠ "")
    (hAny : a ≠ "Any") :
    (availFilter (some a) (some ca) = true ↔ startsWithLower ca a = true) := by
  rw [availFilter]
  rw [if_neg (by simp [ha, hAny])]
  split
  · next hca =>
    subst hca
    constructor
    · intro hfalse
      exact absurd hfalse (by simp)
    · intro hsw
      rw [startsWithLower_empty ha] at hsw
      exact absurd hsw (by simp)
  · exact Iff.rfl

theorem availability_filter_prefix_iff_witness :
    availFilter (some "1 Month") (some "1 month") = true ↔
      startsWithLower "1 month" "1 Month" = true :=
  availability_filter_prefix_iff "1 Month" "1 month" (by decide) (by decide)

/-- Claim C9, counterexample: the query location `"Bengaluru "` (trailing
space) is a non-empty string that is NOT a case-insensitive substring of
the candidate location `"Bengaluru, India"`, yet the location filter keeps
the candidate, because the code (line 178) strips the query before the
substring test. -/
theorem location_filter_strips_query_cex :
    ("Bengaluru " : String) ≠ "" ∧
    locFilter (some "Bengaluru ") (some "Bengaluru, India") = true ∧
    inLower "Bengaluru " "Bengaluru, India" = false := by decide

/-- Claim C9, amended: when the query location is non-blank after
stripping surrounding whitespace, a candidate with location string `s` is
kept by the location filter of search if and only if the STRIPPED query
appears as a case-insensitive substring of `s`. -/
theorem location_filter_trimmed_substring_iff (l s : String)
    (hl : trimS l ≠ "") :
    (locFilter (some l) (some s) = true ↔ inLower (trimS l) s = true) := by
  rw [locFilter]
  rw [if_neg ?hc]
  case hc =>
    rintro (rfl | h)
    · exact hl rfl
    · exact hl h
  split
  · next hs =>
    subst hs
    rw [inLower_empty_hay hl]
  · exact Iff.rfl

theorem location_filter_trimmed_substring_iff_witness :
    locFilter (some "bengaluru") (some "Bengaluru, India") = true ↔
      inLower (trimS "bengaluru") "Bengaluru, India" = true :=
  location_filter_trimmed_substring_iff "bengaluru" "Bengaluru, India" (by decide)

/-- Claim C10: the values placed in a result are the two-decimal roundings
of the exact tenure and score (`round(x, 2)` at lines 258-259), so every
reported `years_experience` and `match_score` is an integer multiple of
1/100 — the ordering and the unit-interval bound are over rounded values. -/
theorem search_reports_rounded_values (today : Date) (q : Query)
    (cands : List Candidate) (rs : List SearchResult) (r : SearchResult)
    (h : search_candidates today q cands = Except.ok rs) (hr : r ∈ rs) :
    ∃ c ∈ cands,
      r.years_experience = round2 (rawYears today q c) ∧
      r.match_score = round2 (rawScore today q c) ∧
      (∃ n : ℤ, r.years_experience = (n : ℚ) / 100) ∧
      ∃ m : ℤ, r.match_score = (m : ℚ) / 100 := by
  obtain ⟨c, hc, hp⟩ := mem_search h hr
  obtain ⟨-, -, -, -, -, hrEq⟩ := processCandidate_some hp
  have hy : r.years_experience = round2 (rawYears today q c) := by rw [hrEq]
  have hm : r.match_score = round2 (rawScore today q c) := by rw [hrEq]
  exact ⟨c, hc, hy, hm,
    ⟨roundHalfEven (rawYears today q c * 100), by rw [hy, round2]⟩,
    ⟨roundHalfEven (rawScore today q c * 100), by rw [hm, round2]⟩⟩

theorem search_reports_rounded_values_witness :
    ∃ c ∈ [candDeep],
      resDeepPJ.years_experience = round2 (rawYears exToday qPJ c) ∧
      resDeepPJ.match_score = round2 (rawScore exToday qPJ c) ∧
      (∃ n : ℤ, resDeepPJ.years_experience = (n : ℚ) / 100) ∧
      ∃ m : ℤ, resDeepPJ.match_score = (m : ℚ) / 100 :=
  search_reports_rounded_values exToday qPJ [candDeep] [resDeepPJ] resDeepPJ
    (by decide) (by decide)
